import Mathlib

/-!
Verification of `analyze_branches.py`, a git branch analyzer.

The program shells out to `git`, parses line-oriented text, classifies
branches into stale/active/merged buckets, and renders a text or JSON
report.  We embed it shallowly: strings are `List Char`, each external
command invocation is represented by a `CmdResult` (return code, stdout,
stderr) supplied by an environment, stateful printing to stderr is
modelled by returning the list of printed strings, and `datetime`
timestamps are integers (seconds).  `datetime.fromisoformat` is a library
primitive and is passed in as a parameter `parseDate : Str → Option Int`
(returning `none` exactly when the Python call would raise).
-/

abbrev Str := List Char

/-- The whitespace characters stripped by Python `str.strip()` /
split on by `str.split()` (ASCII subset; the inputs here are ASCII). -/
def isPySpace (c : Char) : Bool :=
  c == ' ' || c == '\t' || c == '\n' || c == '\r' || c == '\x0b' || c == '\x0c'

/-- Python `str.strip()`. -/
def pyStrip (s : Str) : Str :=
  ((s.dropWhile isPySpace).reverse.dropWhile isPySpace).reverse

/-- Python `str.split(sep)` for a one-character separator
(`"".split(c) == ['']`, empty fields kept). -/
def splitOnChar (c : Char) : Str → List Str
  | [] => [[]]
  | a :: as =>
    let r := splitOnChar c as
    if a == c then [] :: r
    else
      match r with
      | h :: t => (a :: h) :: t
      | [] => [[a]]

def splitWSGo : Str → Str → List Str
  | [], acc => if acc.isEmpty then [] else [acc.reverse]
  | c :: cs, acc =>
    if isPySpace c then
      if acc.isEmpty then splitWSGo cs [] else acc.reverse :: splitWSGo cs []
    else splitWSGo cs (c :: acc)

/-- Python `str.split()` with no argument: split on runs of whitespace,
discarding empty fields. -/
def splitWS (s : Str) : List Str := splitWSGo s []

/-- Does `s` start with `pat`? -/
def strStartsW : Str → Str → Bool
  | [], _ => true
  | _ :: _, [] => false
  | p :: ps, c :: cs => p == c && strStartsW ps cs

/-- Python `sub in s` (substring containment). -/
def strContains (s sub : Str) : Bool :=
  match s with
  | [] => sub.isEmpty
  | _ :: cs => strStartsW sub s || strContains cs sub

/-- Worker for `pyReplace`; the fuel argument makes the recursion
structural (each step consumes at least one character, so fuel
`s.length` is enough). -/
def pyReplaceGo : Nat → Str → Str → Str → Str
  | 0, s, _, _ => s
  | _ + 1, [], _, _ => []
  | fuel + 1, c :: cs, pat, rep =>
    if strStartsW pat (c :: cs) then rep ++ pyReplaceGo fuel (cs.drop (pat.length - 1)) pat rep
    else c :: pyReplaceGo fuel cs pat rep

/-- Python `s.replace(pat, rep)`: replace all non-overlapping occurrences,
left to right (all patterns used by the program are non-empty). -/
def pyReplace (s pat rep : Str) : Str := pyReplaceGo s.length s pat rep

def digitVal (c : Char) : Option Nat :=
  if '0' ≤ c ∧ c ≤ '9' then some (c.toNat - '0'.toNat) else none

def parseDigitsGo : Str → Nat → Option Nat
  | [], acc => some acc
  | c :: cs, acc =>
    match digitVal c with
    | some d => parseDigitsGo cs (acc * 10 + d)
    | none => none

/-- Model of Python `int(s)` on a decimal string: optional surrounding
whitespace, optional sign, at least one digit; `none` when the Python
call would raise `ValueError`. -/
def parsePyInt (s : Str) : Option Int :=
  let t := pyStrip s
  match t with
  | '-' :: rest =>
    if rest.isEmpty then none else (parseDigitsGo rest 0).map (fun n => -(n : Int))
  | '+' :: rest =>
    if rest.isEmpty then none else (parseDigitsGo rest 0).map (fun n => (n : Int))
  | _ => if t.isEmpty then none else (parseDigitsGo t 0).map (fun n => (n : Int))

/-- Model of Python `str(n)` for a natural number. -/
def natToStr (n : Nat) : Str := Nat.toDigits 10 n

/-- Model of Python `str(i)` for an integer. -/
def intToStr (i : Int) : Str :=
  if i < 0 then '-' :: natToStr i.natAbs else natToStr i.natAbs

def joinBar : List Str → Str
  | [] => []
  | [x] => x
  | x :: xs => x ++ '|' :: joinBar xs

/-- Python `s.split('|', 3)` unpacked into exactly four names
(`none` when the unpacking would raise `ValueError`). -/
def split3Bar (s : Str) : Option (Str × Str × Str × Str) :=
  match splitOnChar '|' s with
  | p0 :: p1 :: p2 :: r :: rs => some (p0, p1, p2, joinBar (r :: rs))
  | _ => none

/-! ## Command runner (`GitBranchAnalyzer._run_git_command`) -/

/-- The observable outcome of one `subprocess.run(['git'] + args, ...)`
invocation: return code, captured stdout and captured stderr. -/
structure CmdResult where
  returncode : Int
  stdout : Str
  stderr : Str
  deriving DecidableEq

/-- `GitBranchAnalyzer._run_git_command`: on exit code 0 return
`result.stdout.strip()` (and print nothing); on a non-zero exit
(`subprocess.CalledProcessError`, since `check=True`) print two
diagnostic lines to stderr and return the empty string.  The second
component is the list of lines printed to stderr.  The first diagnostic
is Python's `f"Error running git command: {e}"`; we keep its fixed text
and the return code, eliding the repr of the argument list. -/
def run_git_command (r : CmdResult) : Str × List Str :=
  if r.returncode = 0 then (pyStrip r.stdout, [])
  else ([], [("Error running git command: returncode ".data) ++ intToStr r.returncode,
             ("stderr: ".data) ++ r.stderr])

/-! ## Data model (`BranchInfo`) -/

/-- `BranchInfo.__init__` fields, plus the three fields filled in by
`get_branch_info` (`commit_count`, `is_merged`, `ahead_behind`).
`last_commit_date` is the timestamp in seconds. -/
structure BranchInfo where
  name : Str
  last_commit_date : Int
  last_commit_sha : Str
  last_commit_msg : Str
  author : Str
  commit_count : Int
  is_merged : Bool
  ahead_behind : Option (Int × Int)
  deriving DecidableEq

/-- `BranchInfo.days_since_update`: `(datetime.now() - last_commit_date).days`,
i.e. the floor of the elapsed seconds divided by 86400. -/
def days_since_update (now : Int) (b : BranchInfo) : Int :=
  (now - b.last_commit_date).fdiv 86400

/-- The dictionary produced by `BranchInfo.to_dict`.  The
`last_commit_date` entry is kept as the raw timestamp (its
`isoformat()` rendering is pure formatting that no claim depends on). -/
structure BranchDict where
  name : Str
  last_commit_date : Int
  last_commit_sha : Str
  last_commit_msg : Str
  author : Str
  commit_count : Int
  is_merged : Bool
  ahead_behind : Option (Int × Int)
  days_since_update : Int
  deriving DecidableEq

/-- `BranchInfo.to_dict`. -/
def BranchInfo.to_dict (now : Int) (b : BranchInfo) : BranchDict :=
  { name := b.name
    last_commit_date := b.last_commit_date
    last_commit_sha := b.last_commit_sha
    last_commit_msg := b.last_commit_msg
    author := b.author
    commit_count := b.commit_count
    is_merged := b.is_merged
    ahead_behind := b.ahead_behind
    days_since_update := days_since_update now b }

/-! ## Branch listing and default-branch detection -/

/-- `GitBranchAnalyzer._get_default_branch`: scan the lines of
`git branch -a` output; return the literal `"main"` as soon as a
stripped line (with `'* '` removed) contains `"main"` as a substring,
else the literal `"master"`. -/
def get_default_branch (output : Str) : Str :=
  let branches := splitOnChar '\n' output
  if branches.any (fun branch =>
      strContains (pyReplace (pyStrip branch) ("* ".data) []) ("main".data))
  then "main".data else "master".data

/-- `GitBranchAnalyzer.get_branches`: split the listing output into
lines, strip each, remove `'* '` and `'remotes/'`, keep non-empty lines
not containing `'->'`. -/
def get_branches (output : Str) : List Str :=
  (splitOnChar '\n' output).filterMap (fun line =>
    let l := pyReplace (pyReplace (pyStrip line) ("* ".data) []) ("remotes/".data) []
    if !l.isEmpty && !strContains l ("->".data) then some l else none)

/-! ## Branch inspection (`GitBranchAnalyzer.get_branch_info`) -/

/-- The four `git` invocations `get_branch_info` makes for one branch,
in source order: `log -1 --format=%H|%aI|%an|%s`, `rev-list --count`,
`branch --merged <default>`, `rev-list --left-right --count
<default>...<branch>`. -/
structure BranchCmds where
  logCmd : CmdResult
  revListCountCmd : CmdResult
  mergedCmd : CmdResult
  aheadBehindCmd : CmdResult
  deriving DecidableEq

/-- Line 136 of the source: `any(branch in line for line in
merged_output.split('\n'))` — substring containment of the branch name
in any line of the `git branch --merged` output. -/
def mergedCheck (merged_output branch : Str) : Bool :=
  (splitOnChar '\n' merged_output).any (fun line => strContains line branch)

/-- Lines 142–153 of the source: the ahead/behind computation.  Only
performed when `branch != default_branch`; the output of the
symmetric-difference count query is split on whitespace and unpacked as
`behind, ahead` in that textual order, then stored as
`(int(ahead), int(behind))`; any failure (wrong token count, non-integer
token) is caught by the inner `except` and leaves the pair `None`, as
does empty output.  Second component: stderr lines from the runner. -/
def computeAheadBehind (default_branch branch : Str) (cmd : CmdResult) :
    Option (Int × Int) × List Str :=
  if branch ≠ default_branch then
    let r := run_git_command cmd
    (if !r.1.isEmpty then
       match splitWS r.1 with
       | [behind, ahead] =>
         match parsePyInt ahead, parsePyInt behind with
         | some a, some b => some (a, b)
         | _, _ => none
       | _ => none
     else none, r.2)
  else (none, [])

/-- The stderr line printed by `get_branch_info`'s outer `except`
(`f"Error getting info for branch {branch}: {e}"`; the exception text is
elided). -/
def branchErrLine (branch : Str) : Str :=
  ("Error getting info for branch ".data) ++ branch

/-- `GitBranchAnalyzer.get_branch_info`.  Returns the optional record
and the list of stderr lines printed during the inspection.  `none` is
returned when the log query yields no output (silent skip) or when any
step of assembling the record raises (caught by the outer `except`,
which prints `branchErrLine`).  `parseDate` models
`datetime.fromisoformat` applied after the `'Z' -> '+00:00'`
replacement. -/
def get_branch_info (default_branch : Str) (parseDate : Str → Option Int)
    (branch : Str) (c : BranchCmds) : Option BranchInfo × List Str :=
  let r1 := run_git_command c.logCmd
  if r1.1.isEmpty then (none, r1.2)
  else
    match split3Bar r1.1 with
    | none => (none, r1.2 ++ [branchErrLine branch])
    | some (sha, date_str, author, msg) =>
      match parseDate (pyReplace date_str ("Z".data) ("+00:00".data)) with
      | none => (none, r1.2 ++ [branchErrLine branch])
      | some commit_date =>
        let r2 := run_git_command c.revListCountCmd
        let r3 := run_git_command c.mergedCmd
        let is_merged := mergedCheck r3.1 branch
        match (if r2.1.isEmpty then some 0 else parsePyInt r2.1) with
        | none => (none, r1.2 ++ r2.2 ++ r3.2 ++ [branchErrLine branch])
        | some cnt =>
          let ab := computeAheadBehind default_branch branch c.aheadBehindCmd
          (some { name := branch
                  last_commit_date := commit_date
                  last_commit_sha := sha
                  last_commit_msg := msg
                  author := author
                  commit_count := cnt
                  is_merged := is_merged
                  ahead_behind := ab.1 },
           r1.2 ++ r2.2 ++ r3.2 ++ ab.2)

/-! ## Analyzer (`GitBranchAnalyzer.__init__` / `analyze`) -/

/-- The repository environment seen by one run: the results of the
current-branch query, of the `git branch -a` used by default-branch
detection, of the listing used by `get_branches`, and of the four
per-branch inspection commands. -/
structure AnalyzerEnv where
  revParseHeadCmd : CmdResult
  branchAllCmd : CmdResult
  branchListCmd : CmdResult
  perBranch : Str → BranchCmds

/-- The analyzer state set up by `GitBranchAnalyzer.__init__`. -/
structure GitBranchAnalyzer where
  stale_days : Int
  include_remote : Bool
  current_branch : Str
  default_branch : Str

/-- `GitBranchAnalyzer.__init__`: record the options and determine the
current and default branch once, at construction time. -/
def mkAnalyzer (stale_days : Int) (include_remote : Bool) (env : AnalyzerEnv) :
    GitBranchAnalyzer :=
  { stale_days := stale_days
    include_remote := include_remote
    current_branch := (run_git_command env.revParseHeadCmd).1
    default_branch := get_default_branch (run_git_command env.branchAllCmd).1 }

/-- The sort order of line 172: `key=lambda x: x.last_commit_date,
reverse=True`, i.e. descending timestamps. -/
def dateDescRel (x y : BranchInfo) : Prop :=
  y.last_commit_date ≤ x.last_commit_date

instance : DecidableRel dateDescRel :=
  fun x y => inferInstanceAs (Decidable (y.last_commit_date ≤ x.last_commit_date))

instance : IsTotal BranchInfo dateDescRel :=
  ⟨fun a b => Int.le_total b.last_commit_date a.last_commit_date⟩

instance : IsTrans BranchInfo dateDescRel :=
  ⟨fun _ _ _ hab hbc => Int.le_trans hbc hab⟩

/-- Lines 163–169 of `analyze`: inspect every listed branch and keep the
records that resolve (`if info: branch_infos.append(info)`). -/
def branchInfos (a : GitBranchAnalyzer) (env : AnalyzerEnv)
    (parseDate : Str → Option Int) : List BranchInfo :=
  (get_branches (run_git_command env.branchListCmd).1).filterMap
    (fun branch => (get_branch_info a.default_branch parseDate branch (env.perBranch branch)).1)

/-- Line 172: `branch_infos.sort(key=lambda x: x.last_commit_date,
reverse=True)`.  Python's sort is stable, and a stable sort's output is
uniquely determined by the input order and the key, so we model it by
stable insertion sort on the descending-date order. -/
def sortedInfos (a : GitBranchAnalyzer) (env : AnalyzerEnv)
    (parseDate : Str → Option Int) : List BranchInfo :=
  (branchInfos a env parseDate).insertionSort dateDescRel

/-- The staleness test of line 176: `b.days_since_update() > self.stale_days`. -/
def isStale (a : GitBranchAnalyzer) (now : Int) (b : BranchInfo) : Bool :=
  decide (a.stale_days < days_since_update now b)

/-- Lines 175–176: the stale bucket. -/
def staleInfos (a : GitBranchAnalyzer) (env : AnalyzerEnv)
    (parseDate : Str → Option Int) (now : Int) : List BranchInfo :=
  (sortedInfos a env parseDate).filter (isStale a now)

/-- Lines 177–178: the active bucket (`days_since_update() <= stale_days`). -/
def activeInfos (a : GitBranchAnalyzer) (env : AnalyzerEnv)
    (parseDate : Str → Option Int) (now : Int) : List BranchInfo :=
  (sortedInfos a env parseDate).filter (fun b => decide (days_since_update now b ≤ a.stale_days))

/-- Line 179: the merged bucket (`b.is_merged`); unlike stale/active it
does not depend on the current time. -/
def mergedInfos (a : GitBranchAnalyzer) (env : AnalyzerEnv)
    (parseDate : Str → Option Int) : List BranchInfo :=
  (sortedInfos a env parseDate).filter (fun b => b.is_merged)

/-- The `'summary'` dictionary returned by `analyze`. -/
structure AnalysisSummary where
  total_branches : Nat
  active_branches : Nat
  stale_branches : Nat
  merged_branches : Nat
  current_branch : Str
  default_branch : Str
  stale_threshold_days : Int
  deriving DecidableEq

/-- The dictionary returned by `analyze`. -/
structure AnalysisResult where
  summary : AnalysisSummary
  stale_branches : List BranchDict
  active_branches : List BranchDict
  merged_branches : List BranchDict
  deriving DecidableEq

/-- `GitBranchAnalyzer.analyze`, lines 161–194.  `now` is the
`datetime.now()` of the run. -/
def analyze (a : GitBranchAnalyzer) (env : AnalyzerEnv)
    (parseDate : Str → Option Int) (now : Int) : AnalysisResult :=
  { summary :=
      { total_branches := (sortedInfos a env parseDate).length
        active_branches := (activeInfos a env parseDate now).length
        stale_branches := (staleInfos a env parseDate now).length
        merged_branches := (mergedInfos a env parseDate).length
        current_branch := a.current_branch
        default_branch := a.default_branch
        stale_threshold_days := a.stale_days }
    stale_branches := (staleInfos a env parseDate now).map (BranchInfo.to_dict now)
    active_branches := (activeInfos a env parseDate now).map (BranchInfo.to_dict now)
    merged_branches := (mergedInfos a env parseDate).map (BranchInfo.to_dict now) }

/-! ## Reporter (`print_text_report`), modelled as the list of strings
printed to stdout, one element per `print` call. -/

def sepLine (c : Char) : Str := List.replicate 70 c

/-- The per-branch block of the stale-branches section
(lines 223–238 of the source); note the `[:50]` truncation of the
last-commit subject. -/
def staleBranchLines (branch : BranchDict) : List Str :=
  [("\nâ€¢ ".data) ++ branch.name,
   ("  Last updated: ".data) ++ intToStr branch.days_since_update ++ (" days ago".data),
   ("  Author: ".data) ++ branch.author,
   ("  Status: ".data) ++
     (if branch.is_merged then ("âœ“ merged".data) else ("âœ— not merged".data)),
   ("  Last commit: ".data) ++ branch.last_commit_msg.take 50]
  ++ (match branch.ahead_behind with
      | some (ahead, behind) =>
        [("  Position: ".data) ++ intToStr ahead ++ (" ahead, ".data) ++
           intToStr behind ++ (" behind".data)]
      | none => [])

/-- Lines 245–251: the stale-and-merged ("can be safely deleted")
recommendation block, capped at 5 entries plus a remainder line. -/
def deletableLines (analysis : AnalysisResult) : List Str :=
  let deletable := analysis.stale_branches.filter (fun b => b.is_merged)
  if !deletable.isEmpty then
    (("\nâœ“ ".data) ++ natToStr deletable.length ++
       (" branches can be safely deleted (stale + merged):".data))
    :: (deletable.take 5).map (fun branch => ("  - ".data) ++ branch.name)
    ++ (if 5 < deletable.length then
          [("  ... and ".data) ++ natToStr (deletable.length - 5) ++ (" more".data)]
        else [])
  else []

/-- Lines 253–260: the stale-but-unmerged recommendation block, capped
at 5 entries plus a remainder line, followed by a caution note. -/
def staleUnmergedLines (analysis : AnalysisResult) : List Str :=
  let stale_unmerged := analysis.stale_branches.filter (fun b => !b.is_merged)
  if !stale_unmerged.isEmpty then
    (("\nâš  ".data) ++ natToStr stale_unmerged.length ++
       (" stale branches are NOT merged:".data))
    :: (stale_unmerged.take 5).map (fun branch => ("  - ".data) ++ branch.name)
    ++ (if 5 < stale_unmerged.length then
          [("  ... and ".data) ++ natToStr (stale_unmerged.length - 5) ++ (" more".data)]
        else [])
    ++ [("\n  Review these branches before deleting!".data)]
  else []

/-- Lines 264–267: tally how many active branches each author owns
(Python dict: keys in first-appearance order, counts incremented). -/
def bumpAuthor (author : Str) : List (Str × Nat) → List (Str × Nat)
  | [] => [(author, 1)]
  | (a, n) :: rest =>
    if a = author then (a, n + 1) :: rest else (a, n) :: bumpAuthor author rest

def tallyAuthors (branches : List BranchDict) : List (Str × Nat) :=
  branches.foldl (fun acc b => bumpAuthor b.author acc) []

/-- Lines 263–271: the "most active contributors" leaderboard (sorted by
count descending, stable, top 5). -/
def activeAuthorLines (analysis : AnalysisResult) : List Str :=
  if !analysis.active_branches.isEmpty then
    ("\nðŸ“Š Most active contributors:".data)
    :: (((tallyAuthors analysis.active_branches).insertionSort
           (fun x y => y.2 ≤ x.2)).take 5).map
         (fun p => ("  - ".data) ++ p.1 ++ (": ".data) ++ natToStr p.2 ++
           (" active branch(es)".data))
  else []

/-- `print_text_report`, lines 197–273, as the ordered list of strings
printed to stdout. -/
def print_text_report (analysis : AnalysisResult) : List Str :=
  [("\n".data) ++ sepLine '=',
   ("  GIT BRANCH ANALYSIS REPORT".data),
   sepLine '=',
   ("\nCurrent Branch: ".data) ++ analysis.summary.current_branch,
   ("Default Branch: ".data) ++ analysis.summary.default_branch,
   ("Stale Threshold: ".data) ++ intToStr analysis.summary.stale_threshold_days ++ (" days".data),
   ("\n".data) ++ sepLine '-',
   ("SUMMARY".data),
   sepLine '-',
   ("Total Branches:   ".data) ++ natToStr analysis.summary.total_branches,
   ("Active Branches:  ".data) ++ natToStr analysis.summary.active_branches,
   ("Stale Branches:   ".data) ++ natToStr analysis.summary.stale_branches,
   ("Merged Branches:  ".data) ++ natToStr analysis.summary.merged_branches]
  ++ (if !analysis.stale_branches.isEmpty then
        [("\n".data) ++ sepLine '-',
         ("STALE BRANCHES (>".data) ++ intToStr analysis.summary.stale_threshold_days ++ (" days)".data),
         sepLine '-']
        ++ analysis.stale_branches.flatMap staleBranchLines
      else [])
  ++ [("\n".data) ++ sepLine '-', ("RECOMMENDATIONS".data), sepLine '-']
  ++ deletableLines analysis
  ++ staleUnmergedLines analysis
  ++ activeAuthorLines analysis
  ++ [("\n".data) ++ sepLine '=' ++ ("\n".data)]

/-- Modelled from the spec: the merge-status check as the claim states
it — the branch name appears "as a whole token, not as a substring" in
the merged-branch listing, i.e. some line of the listing, stripped and
with the `'* '` marker removed, is exactly the branch name.  (This is
NOT the source behavior; it is stated for comparison with
`mergedCheck`.) -/
def mergedCheckToken (merged_output branch : Str) : Bool :=
  (splitOnChar '\n' merged_output).any (fun line =>
    decide (pyReplace (pyStrip line) ("* ".data) [] = branch))

/-! ## Concrete example repositories, used to instantiate the theorems -/

/-- A successful command with the given stdout. -/
def exCmd (s : String) : CmdResult := { returncode := 0, stdout := s.data, stderr := [] }

/-- A concrete stand-in for `datetime.fromisoformat`: the example date
strings are plain integers (seconds). -/
def exParseDate (s : Str) : Option Int := parsePyInt s

def exAlphaCmds : BranchCmds :=
  { logCmd := exCmd "sha1|2592000|Alice|Fix the thing"
    revListCountCmd := exCmd "7"
    mergedCmd := exCmd "  alpha\n  main"
    aheadBehindCmd := exCmd "3 5" }

def exBetaCmds : BranchCmds :=
  { logCmd := exCmd "sha2|0|Bob|Init"
    revListCountCmd := exCmd "2"
    mergedCmd := exCmd "  main"
    aheadBehindCmd := exCmd "1 0" }

def exEnv : AnalyzerEnv :=
  { revParseHeadCmd := exCmd "beta"
    branchAllCmd := exCmd "* main"
    branchListCmd := exCmd "  alpha\n* beta"
    perBranch := fun branch => if branch = ("alpha".data) then exAlphaCmds else exBetaCmds }

def exA : GitBranchAnalyzer := mkAnalyzer 30 false exEnv

def exNow : Int := 5184000

/-- The record `get_branch_info` produces for `alpha` in `exEnv`:
last commit 30 days before `exNow` (exactly the threshold). -/
def exAlphaInfo : BranchInfo :=
  { name := "alpha".data
    last_commit_date := 2592000
    last_commit_sha := "sha1".data
    last_commit_msg := "Fix the thing".data
    author := "Alice".data
    commit_count := 7
    is_merged := true
    ahead_behind := some (5, 3) }

/-- The record `get_branch_info` produces for `beta` in `exEnv`:
last commit 60 days before `exNow` (stale). -/
def exBetaInfo : BranchInfo :=
  { name := "beta".data
    last_commit_date := 0
    last_commit_sha := "sha2".data
    last_commit_msg := "Init".data
    author := "Bob".data
    commit_count := 2
    is_merged := false
    ahead_behind := some (0, 1) }


def exC1Cmds : BranchCmds :=
  { logCmd := exCmd "s|0|A|m"
    revListCountCmd := exCmd "1"
    mergedCmd := exCmd "feature-x"
    aheadBehindCmd := exCmd "0 0" }

def exC6Cmds : BranchCmds :=
  { logCmd := exCmd ""
    revListCountCmd := exCmd ""
    mergedCmd := exCmd ""
    aheadBehindCmd := exCmd "" }

/-- A stale branch dictionary for exercising the recommendation cap. -/
def exDict (nm : String) (merged : Bool) : BranchDict :=
  { name := nm.data
    last_commit_date := 0
    last_commit_sha := "s".data
    last_commit_msg := "m".data
    author := "A".data
    commit_count := 1
    is_merged := merged
    ahead_behind := none
    days_since_update := 40 }

/-- An analysis with six stale-and-merged branches (more than the cap
of 5). -/
def exAnalysisBig : AnalysisResult :=
  { summary :=
      { total_branches := 6
        active_branches := 0
        stale_branches := 6
        merged_branches := 6
        current_branch := "main".data
        default_branch := "main".data
        stale_threshold_days := 30 }
    stale_branches := [exDict "b1" true, exDict "b2" true, exDict "b3" true,
                       exDict "b4" true, exDict "b5" true, exDict "b6" true]
    active_branches := []
    merged_branches := [] }


/-! ## Helper lemmas -/

/-- Two complementary Boolean filters partition a list's length. -/
lemma length_filter_compl {α : Type} (l : List α) (p q : α → Bool)
    (h : ∀ x, q x = !p x) : (l.filter p).length + (l.filter q).length = l.length := by
  induction l with
  | nil => simp
  | cons x xs ih =>
    cases hp : p x with
    | true =>
      have hq : q x = false := by rw [h x, hp]; rfl
      simp [List.filter_cons, hp, hq]
      omega
    | false =>
      have hq : q x = true := by rw [h x, hp]; rfl
      simp [List.filter_cons, hp, hq]
      omega

/-- Inversion of `get_branch_info` on success: the record's name is the
inspected branch, its merge flag is the substring check against the
merged-listing output, and its ahead/behind pair is the result of
`computeAheadBehind`. -/
lemma get_branch_info_eq_some {default_branch : Str} {parseDate : Str → Option Int}
    {branch : Str} {c : BranchCmds} {info : BranchInfo}
    (h : (get_branch_info default_branch parseDate branch c).1 = some info) :
    info.name = branch ∧
    info.is_merged = mergedCheck (run_git_command c.mergedCmd).1 branch ∧
    info.ahead_behind = (computeAheadBehind default_branch branch c.aheadBehindCmd).1 := by
  simp only [get_branch_info] at h
  split at h
  · simp at h
  · split at h
    · simp at h
    · split at h
      · simp at h
      · split at h
        · simp at h
        · simp only [Option.some.injEq] at h
          subst h
          exact ⟨rfl, rfl, rfl⟩

/-- Stability of the modelled sort: the elements with any fixed
timestamp appear in the sorted list exactly in their original order. -/
lemma filter_date_insertionSort (l : List BranchInfo) (t : Int) :
    (l.insertionSort dateDescRel).filter (fun b => decide (b.last_commit_date = t)) =
      l.filter (fun b => decide (b.last_commit_date = t)) := by
  have hpw : (l.filter (fun b => decide (b.last_commit_date = t))).Pairwise dateDescRel := by
    apply List.pairwise_of_forall_mem_list
    intro a ha b hb
    have ha' := (List.mem_filter.mp ha).2
    have hb' := (List.mem_filter.mp hb).2
    simp only [decide_eq_true_eq] at ha' hb'
    show b.last_commit_date ≤ a.last_commit_date
    rw [ha', hb']
  have h1 : (l.filter (fun b => decide (b.last_commit_date = t))).Sublist
      (l.insertionSort dateDescRel) :=
    List.sublist_insertionSort hpw (List.filter_sublist l)
  have h2 : (l.filter (fun b => decide (b.last_commit_date = t))).filter
      (fun b => decide (b.last_commit_date = t)) =
      l.filter (fun b => decide (b.last_commit_date = t)) :=
    List.filter_eq_self.mpr (fun a ha => (List.mem_filter.mp ha).2)
  have h3 : (l.filter (fun b => decide (b.last_commit_date = t))).Sublist
      ((l.insertionSort dateDescRel).filter (fun b => decide (b.last_commit_date = t))) := by
    have h4 := h1.filter (fun b => decide (b.last_commit_date = t))
    rwa [h2] at h4
  have hperm : ((l.insertionSort dateDescRel).filter (fun b => decide (b.last_commit_date = t))).Perm
      (l.filter (fun b => decide (b.last_commit_date = t))) :=
    (List.perm_insertionSort dateDescRel l).filter (fun b => decide (b.last_commit_date = t))
  exact (h3.eq_of_length hperm.length_eq.symm).symm

/-- Every record any bucket can contain comes from a successful
inspection of a listed branch. -/
lemma mem_branchInfos {a : GitBranchAnalyzer} {env : AnalyzerEnv}
    {parseDate : Str → Option Int} {b : BranchInfo}
    (h : b ∈ branchInfos a env parseDate) :
    ∃ branch ∈ get_branches (run_git_command env.branchListCmd).1,
      (get_branch_info a.default_branch parseDate branch (env.perBranch branch)).1 = some b := by
  exact List.mem_filterMap.mp h

/-! ## Claim theorems -/

/-- **C5.** Whenever the external binary exits non-zero, the command
runner returns the empty string and emits a non-empty diagnostic to the
error stream that includes the captured standard error; it never
propagates the failure (the function is total, returning a value in
every case); on success it returns the trimmed standard output and
emits nothing. -/
theorem C5_command_runner (r : CmdResult) :
    (r.returncode ≠ 0 →
      (run_git_command r).1 = [] ∧
      (("stderr: ".data) ++ r.stderr) ∈ (run_git_command r).2 ∧
      (run_git_command r).2 ≠ []) ∧
    (r.returncode = 0 → run_git_command r = (pyStrip r.stdout, [])) := by
  constructor
  · intro h
    simp [run_git_command, h]
  · intro h
    simp [run_git_command, h]

/-- Witness for **C5** at a concrete failing invocation. -/
theorem C5_command_runner_witness :
    (run_git_command { returncode := 1, stdout := "out".data, stderr := "boom".data }).1 = [] ∧
    (("stderr: ".data) ++ ("boom".data)) ∈
      (run_git_command { returncode := 1, stdout := "out".data, stderr := "boom".data }).2 := by
  have h := (C5_command_runner { returncode := 1, stdout := "out".data, stderr := "boom".data }).1
    (by decide)
  exact ⟨h.1, h.2.1⟩

/-- **C10.** The default branch computed at construction is always the
literal `"main"` or the literal `"master"`; it is `"main"` exactly when
some line of the full branch listing (stripped, `'* '` removed)
contains `"main"` as a substring — never the actual name of the
matching branch. -/
theorem C10_default_branch_literal (stale_days : Int) (include_remote : Bool)
    (env : AnalyzerEnv) :
    ((mkAnalyzer stale_days include_remote env).default_branch = ("main".data) ∨
      (mkAnalyzer stale_days include_remote env).default_branch = ("master".data)) ∧
    ((mkAnalyzer stale_days include_remote env).default_branch = ("main".data) ↔
      (splitOnChar '\n' ((run_git_command env.branchAllCmd).1)).any (fun branch =>
        strContains (pyReplace (pyStrip branch) ("* ".data) []) ("main".data)) = true) := by
  unfold mkAnalyzer get_default_branch
  by_cases h : (splitOnChar '\n' ((run_git_command env.branchAllCmd).1)).any (fun branch =>
      strContains (pyReplace (pyStrip branch) ("* ".data) []) ("main".data)) = true
  · exact ⟨Or.inl (by simp [h]), by simp [h]⟩
  · have hne : ("master".data : Str) ≠ ("main".data) := by decide
    exact ⟨Or.inr (by simp [h]), by simp [h, hne]⟩

/-- **C3.** A branch record lands in the stale bucket iff it was
analyzed and its whole-days age strictly exceeds the threshold; a
record exactly at the threshold is active. -/
theorem C3_stale_strictly_greater (a : GitBranchAnalyzer) (env : AnalyzerEnv)
    (parseDate : Str → Option Int) (now : Int) (b : BranchInfo) :
    (b ∈ staleInfos a env parseDate now ↔
      b ∈ sortedInfos a env parseDate ∧ a.stale_days < days_since_update now b) ∧
    (days_since_update now b = a.stale_days →
      (b ∈ activeInfos a env parseDate now ↔ b ∈ sortedInfos a env parseDate)) := by
  constructor
  · simp [staleInfos, List.mem_filter, isStale]
  · intro h
    simp [activeInfos, List.mem_filter, h]

/-- Witness for **C3**: in the example repository, `alpha`'s last commit
is exactly 30 days old with threshold 30, and `alpha` is active. -/
theorem C3_stale_strictly_greater_witness :
    days_since_update exNow exAlphaInfo = exA.stale_days ∧
    exAlphaInfo ∈ activeInfos exA exEnv exParseDate exNow := by
  refine ⟨by decide, ?_⟩
  exact ((C3_stale_strictly_greater exA exEnv exParseDate exNow exAlphaInfo).2
    (by decide)).mpr (by decide)

/-- **C2.** The stale and active buckets partition the analyzed
branches: the two summary counts add up to the total, no record is in
both buckets, and every analyzed record is in one of them. -/
theorem C2_stale_active_partition (a : GitBranchAnalyzer) (env : AnalyzerEnv)
    (parseDate : Str → Option Int) (now : Int) :
    (analyze a env parseDate now).summary.stale_branches +
        (analyze a env parseDate now).summary.active_branches =
      (analyze a env parseDate now).summary.total_branches ∧
    (∀ b, ¬ (b ∈ staleInfos a env parseDate now ∧ b ∈ activeInfos a env parseDate now)) ∧
    (∀ b ∈ sortedInfos a env parseDate,
      b ∈ staleInfos a env parseDate now ∨ b ∈ activeInfos a env parseDate now) := by
  refine ⟨?_, ?_, ?_⟩
  · show (staleInfos a env parseDate now).length + (activeInfos a env parseDate now).length =
      (sortedInfos a env parseDate).length
    apply length_filter_compl
    intro b
    show decide (days_since_update now b ≤ a.stale_days) =
      !decide (a.stale_days < days_since_update now b)
    rw [← decide_not]
    exact decide_eq_decide.mpr (Int.not_lt).symm
  · rintro b ⟨hs, ha⟩
    have h1 := (List.mem_filter.mp hs).2
    have h2 := (List.mem_filter.mp ha).2
    simp only [isStale, decide_eq_true_eq] at h1 h2
    omega
  · intro b hb
    by_cases h : a.stale_days < days_since_update now b
    · exact Or.inl (List.mem_filter.mpr ⟨hb, by simp [isStale, h]⟩)
    · exact Or.inr (List.mem_filter.mpr ⟨hb, by simp [Int.not_lt.mp h]⟩)

/-- Witness for **C2**: the example run has total 2 = 1 stale + 1
active, and `beta` lies in one of the two buckets. -/
theorem C2_stale_active_partition_witness :
    exBetaInfo ∈ staleInfos exA exEnv exParseDate exNow ∨
    exBetaInfo ∈ activeInfos exA exEnv exParseDate exNow :=
  (C2_stale_active_partition exA exEnv exParseDate exNow).2.2 exBetaInfo (by decide)

/-- **C4.** Each of the three output buckets is sorted by descending
last-commit timestamp, and ties keep the original iteration order: for
any timestamp `t` and any bucket predicate `p`, restricting a bucket
(a filter of the sorted list) to timestamp `t` gives exactly the same
sequence as restricting the unsorted record list. -/
theorem C4_buckets_sorted_desc (a : GitBranchAnalyzer) (env : AnalyzerEnv)
    (parseDate : Str → Option Int) (now : Int) :
    ((analyze a env parseDate now).stale_branches).Pairwise
      (fun x y => y.last_commit_date ≤ x.last_commit_date) ∧
    ((analyze a env parseDate now).active_branches).Pairwise
      (fun x y => y.last_commit_date ≤ x.last_commit_date) ∧
    ((analyze a env parseDate now).merged_branches).Pairwise
      (fun x y => y.last_commit_date ≤ x.last_commit_date) ∧
    (∀ (t : Int) (p : BranchInfo → Bool),
      ((sortedInfos a env parseDate).filter p).filter
          (fun b => decide (b.last_commit_date = t)) =
        ((branchInfos a env parseDate).filter p).filter
          (fun b => decide (b.last_commit_date = t))) := by
  have hsorted : (sortedInfos a env parseDate).Pairwise dateDescRel :=
    List.sorted_insertionSort dateDescRel (branchInfos a env parseDate)
  have hdict : ∀ (l : List BranchInfo), l.Pairwise dateDescRel →
      (l.map (BranchInfo.to_dict now)).Pairwise
        (fun x y => y.last_commit_date ≤ x.last_commit_date) := by
    intro l hl
    exact List.pairwise_map.mpr (hl.imp (fun h => h))
  refine ⟨hdict _ (hsorted.filter _), hdict _ (hsorted.filter _), hdict _ (hsorted.filter _), ?_⟩
  intro t p
  show ((sortedInfos a env parseDate).filter p).filter
      (fun b => decide (b.last_commit_date = t)) =
    ((branchInfos a env parseDate).filter p).filter (fun b => decide (b.last_commit_date = t))
  rw [List.filter_comm]
  unfold sortedInfos
  rw [filter_date_insertionSort, List.filter_comm]

/-- **C1 counterexample.** For branch `x` with merged-listing output
`feature-x`, the code sets the merged flag (substring hit) although `x`
does not appear as a whole token in that listing — refuting the claimed
"whole token, not substring" behavior. -/
theorem C1_counterexample :
    ((get_branch_info ("main".data) exParseDate ("x".data) exC1Cmds).1.map
      (fun i => i.is_merged)) = some true ∧
    mergedCheckToken ((run_git_command exC1Cmds.mergedCmd).1) ("x".data) = false := by
  decide

/-- **C1 (amended).** The merged flag is set iff the branch name occurs
as a substring of some line of the merged-branch listing, and hence
every record in the merged bucket has its name substring-contained in
the listing obtained for it. -/
theorem C1_merged_substring (a : GitBranchAnalyzer) (env : AnalyzerEnv)
    (parseDate : Str → Option Int) :
    (∀ (dflt branch : Str) (c : BranchCmds) (info : BranchInfo),
      (get_branch_info dflt parseDate branch c).1 = some info →
      info.is_merged = mergedCheck (run_git_command c.mergedCmd).1 branch) ∧
    (∀ b ∈ mergedInfos a env parseDate,
      mergedCheck (run_git_command (env.perBranch b.name).mergedCmd).1 b.name = true) := by
  constructor
  · intro dflt branch c info h
    exact (get_branch_info_eq_some h).2.1
  · intro b hb
    have hmer : b.is_merged = true := (List.mem_filter.mp hb).2
    have hb1 : b ∈ sortedInfos a env parseDate := (List.mem_filter.mp hb).1
    have hb2 : b ∈ branchInfos a env parseDate := by
      unfold sortedInfos at hb1
      exact (List.mem_insertionSort dateDescRel).mp hb1
    obtain ⟨branch, hbr, hsome⟩ := mem_branchInfos hb2
    obtain ⟨hname, hflag, -⟩ := get_branch_info_eq_some hsome
    rw [hflag] at hmer
    rw [hname]
    exact hmer

/-- Witness for **C1 (amended)**: branch `alpha` of the example
repository sits in the merged bucket and its name is
substring-contained in its merged listing. -/
theorem C1_merged_substring_witness :
    mergedCheck ((run_git_command (exEnv.perBranch exAlphaInfo.name).mergedCmd).1)
      exAlphaInfo.name = true :=
  (C1_merged_substring exA exEnv exParseDate).2 exAlphaInfo (by decide)

/-- **C6 counterexample.** A branch whose single-entry log query
succeeds with empty output is skipped with `none` and NOTHING is
printed to the error stream — refuting the claim that an exception
failure is logged in that case. -/
theorem C6_counterexample :
    (run_git_command exC6Cmds.logCmd).1 = [] ∧
    get_branch_info ("main".data) exParseDate ("x".data) exC6Cmds =
      (none, ([] : List Str)) := by
  decide

/-- **C6 (amended).** Empty log output: the inspector returns no record
and prints nothing beyond the runner's own diagnostics (silent skip).
Exception while assembling the record (non-empty log output but a
failed parse): no record and the inspector's error line is printed.
In either case (`none` result) the branch is excluded from all three
buckets and from the analyzed list, while the run continues. -/
theorem C6_skip_and_log (a : GitBranchAnalyzer) (env : AnalyzerEnv)
    (parseDate : Str → Option Int) (now : Int) (branch : Str) (c : BranchCmds) :
    ((run_git_command c.logCmd).1 = [] →
      get_branch_info a.default_branch parseDate branch c =
        (none, (run_git_command c.logCmd).2)) ∧
    ((run_git_command c.logCmd).1 ≠ [] →
      (get_branch_info a.default_branch parseDate branch c).1 = none →
      branchErrLine branch ∈ (get_branch_info a.default_branch parseDate branch c).2) ∧
    ((get_branch_info a.default_branch parseDate branch (env.perBranch branch)).1 = none →
      ∀ info : BranchInfo,
        (info ∈ staleInfos a env parseDate now ∨ info ∈ activeInfos a env parseDate now ∨
         info ∈ mergedInfos a env parseDate ∨ info ∈ branchInfos a env parseDate) →
        info.name ≠ branch) := by
  refine ⟨?_, ?_, ?_⟩
  · intro h
    have hemp : ((run_git_command c.logCmd).1).isEmpty = true := by rw [h]; rfl
    simp [get_branch_info, hemp]
  · intro hne hnone
    have hemp : ((run_git_command c.logCmd).1).isEmpty = false := by
      cases hval : (run_git_command c.logCmd).1 with
      | nil => exact absurd hval hne
      | cons x xs => rfl
    rcases h3 : split3Bar (run_git_command c.logCmd).1 with - | ⟨sha, date_str, author, msg⟩
    · simp [get_branch_info, hemp, h3]
    · rcases hpd : parseDate (pyReplace date_str ("Z".data) ("+00:00".data)) with - | cd
      · simp [get_branch_info, hemp, h3, hpd]
      · rcases hcnt : (if ((run_git_command c.revListCountCmd).1).isEmpty = true then some (0 : Int)
            else parsePyInt (run_git_command c.revListCountCmd).1) with - | cnt
        · simp only [get_branch_info, hemp, h3, hpd, hcnt]
          simp
        · exfalso
          simp only [get_branch_info, hemp, h3, hpd, hcnt] at hnone
          simp at hnone
  · intro hnone info hmem
    have hbi : info ∈ branchInfos a env parseDate := by
      have hsort : ∀ m ∈ sortedInfos a env parseDate, m ∈ branchInfos a env parseDate := by
        intro m hm
        unfold sortedInfos at hm
        exact (List.mem_insertionSort dateDescRel).mp hm
      rcases hmem with h | h | h | h
      · exact hsort info (List.mem_filter.mp h).1
      · exact hsort info (List.mem_filter.mp h).1
      · exact hsort info (List.mem_filter.mp h).1
      · exact h
    obtain ⟨br, hbr, hsome⟩ := mem_branchInfos hbi
    obtain ⟨hname, -, -⟩ := get_branch_info_eq_some hsome
    intro hcontra
    rw [hname] at hcontra
    rw [hcontra] at hsome
    rw [hnone] at hsome
    exact Option.noConfusion hsome

/-- Witness for **C6 (amended)**: applying the empty-log-output case at
a concrete environment. -/
theorem C6_skip_and_log_witness :
    get_branch_info exA.default_branch exParseDate ("y".data) exC6Cmds =
      (none, (run_git_command exC6Cmds.logCmd).2) :=
  (C6_skip_and_log exA exEnv exParseDate exNow ("y".data) exC6Cmds).1 (by decide)

/-- **C7.** The ahead/behind pair is never computed for the default
branch; for any other branch it is either left unset (`none`, on empty
output or any parse failure) or set to the swap of the two integers
parsed in textual order `(behind, ahead)`; and the pair stored in a
successfully assembled record is exactly this computation's result. -/
theorem C7_ahead_behind_swap (dflt branch : Str) (cmd : CmdResult)
    (parseDate : Str → Option Int) (c : BranchCmds) (info : BranchInfo) :
    (computeAheadBehind dflt dflt cmd = (none, [])) ∧
    (branch ≠ dflt →
      ((computeAheadBehind dflt branch cmd).1 = none ∨
        ∃ behind ahead x y, splitWS (run_git_command cmd).1 = [behind, ahead] ∧
          parsePyInt behind = some x ∧ parsePyInt ahead = some y ∧
          (computeAheadBehind dflt branch cmd).1 = some (y, x))) ∧
    ((get_branch_info dflt parseDate branch c).1 = some info →
      info.ahead_behind = (computeAheadBehind dflt branch c.aheadBehindCmd).1) := by
  refine ⟨by simp [computeAheadBehind], ?_, ?_⟩
  · intro hne
    by_cases hemp : ((run_git_command cmd).1).isEmpty = true
    · exact Or.inl (by simp [computeAheadBehind, hne, hemp])
    · have hemp2 : ((run_git_command cmd).1).isEmpty = false := by
        cases h : ((run_git_command cmd).1).isEmpty
        · rfl
        · exact absurd h hemp
      rcases hsp : splitWS (run_git_command cmd).1 with - | ⟨s1, - | ⟨s2, - | ⟨s3, rest⟩⟩⟩
      · exact Or.inl (by simp [computeAheadBehind, hne, hemp2, hsp])
      · exact Or.inl (by simp [computeAheadBehind, hne, hemp2, hsp])
      · rcases hy : parsePyInt s2 with - | y
        · exact Or.inl (by simp [computeAheadBehind, hne, hemp2, hsp, hy])
        · rcases hx : parsePyInt s1 with - | x
          · exact Or.inl (by simp [computeAheadBehind, hne, hemp2, hsp, hy, hx])
          · exact Or.inr ⟨s1, s2, x, y, rfl, hx, hy,
              by simp [computeAheadBehind, hne, hemp2, hsp, hy, hx]⟩
      · exact Or.inl (by simp [computeAheadBehind, hne, hemp2, hsp])
  · intro h
    exact (get_branch_info_eq_some h).2.2

/-- Witness for **C7**: `alpha`'s record stores the pair computed by
`computeAheadBehind` (output `3 5` stored as `(5, 3)`). -/
theorem C7_ahead_behind_swap_witness :
    exAlphaInfo.ahead_behind =
      (computeAheadBehind exA.default_branch ("alpha".data) exAlphaCmds.aheadBehindCmd).1 :=
  (C7_ahead_behind_swap exA.default_branch ("alpha".data) exAlphaCmds.aheadBehindCmd
    exParseDate exAlphaCmds exAlphaInfo).2.2 (by decide)

/-- **C8.** Every stale branch's last-commit subject is printed
truncated to its first 50 characters (exactly 50 when longer than 50),
while the dictionary serialized in JSON mode carries the subject in
full. -/
theorem C8_subject_truncation (analysis : AnalysisResult) (d : BranchDict)
    (hd : d ∈ analysis.stale_branches) (now : Int) (b : BranchInfo) :
    (("  Last commit: ".data) ++ d.last_commit_msg.take 50) ∈ print_text_report analysis ∧
    (50 < d.last_commit_msg.length → (d.last_commit_msg.take 50).length = 50) ∧
    (BranchInfo.to_dict now b).last_commit_msg = b.last_commit_msg := by
  refine ⟨?_, ?_, rfl⟩
  · have hne : analysis.stale_branches.isEmpty = false := by
      cases hl : analysis.stale_branches with
      | nil => rw [hl] at hd; cases hd
      | cons x xs => rfl
    have hline : (("  Last commit: ".data) ++ d.last_commit_msg.take 50) ∈
        staleBranchLines d := by
      unfold staleBranchLines
      simp
    have hflat : (("  Last commit: ".data) ++ d.last_commit_msg.take 50) ∈
        analysis.stale_branches.flatMap staleBranchLines :=
      List.mem_flatMap.mpr ⟨d, hd, hline⟩
    unfold print_text_report
    simp only [hne, Bool.not_false, if_true, List.mem_append]
    tauto
  · intro h
    simp only [List.length_take]
    omega

/-- Witness for **C8**: `beta`'s commit subject line appears (truncated
form) in the example run's text report. -/
theorem C8_subject_truncation_witness :
    (("  Last commit: ".data) ++
        ((BranchInfo.to_dict exNow exBetaInfo).last_commit_msg.take 50)) ∈
      print_text_report (analyze exA exEnv exParseDate exNow) :=
  (C8_subject_truncation (analyze exA exEnv exParseDate exNow)
    (BranchInfo.to_dict exNow exBetaInfo) (by decide) exNow exBetaInfo).1

/-- **C9.** In each recommendation category the text report lists
exactly the first 5 qualifying branches followed by a "... and N more"
line with N the remainder when more than 5 qualify, and all of them
with no remainder line when 5 or fewer qualify. -/
theorem C9_recommendation_cap (analysis : AnalysisResult) :
    (5 < (analysis.stale_branches.filter (fun b => b.is_merged)).length →
      deletableLines analysis =
        (("\nâœ“ ".data) ++
            natToStr (analysis.stale_branches.filter (fun b => b.is_merged)).length ++
            (" branches can be safely deleted (stale + merged):".data))
          :: ((analysis.stale_branches.filter (fun b => b.is_merged)).take 5).map
              (fun branch => ("  - ".data) ++ branch.name)
          ++ [("  ... and ".data) ++
              natToStr ((analysis.stale_branches.filter (fun b => b.is_merged)).length - 5) ++
              (" more".data)] ∧
      (((analysis.stale_branches.filter (fun b => b.is_merged)).take 5).map
          (fun branch => ("  - ".data) ++ branch.name)).length = 5) ∧
    ((analysis.stale_branches.filter (fun b => b.is_merged)).length ≤ 5 →
      (analysis.stale_branches.filter (fun b => b.is_merged)) ≠ [] →
      deletableLines analysis =
        (("\nâœ“ ".data) ++
            natToStr (analysis.stale_branches.filter (fun b => b.is_merged)).length ++
            (" branches can be safely deleted (stale + merged):".data))
          :: (analysis.stale_branches.filter (fun b => b.is_merged)).map
              (fun branch => ("  - ".data) ++ branch.name)) ∧
    (5 < (analysis.stale_branches.filter (fun b => !b.is_merged)).length →
      staleUnmergedLines analysis =
        (("\nâš  ".data) ++
            natToStr (analysis.stale_branches.filter (fun b => !b.is_merged)).length ++
            (" stale branches are NOT merged:".data))
          :: ((analysis.stale_branches.filter (fun b => !b.is_merged)).take 5).map
              (fun branch => ("  - ".data) ++ branch.name)
          ++ [("  ... and ".data) ++
              natToStr ((analysis.stale_branches.filter (fun b => !b.is_merged)).length - 5) ++
              (" more".data)]
          ++ [("\n  Review these branches before deleting!".data)]) ∧
    ((analysis.stale_branches.filter (fun b => !b.is_merged)).length ≤ 5 →
      (analysis.stale_branches.filter (fun b => !b.is_merged)) ≠ [] →
      staleUnmergedLines analysis =
        (("\nâš  ".data) ++
            natToStr (analysis.stale_branches.filter (fun b => !b.is_merged)).length ++
            (" stale branches are NOT merged:".data))
          :: (analysis.stale_branches.filter (fun b => !b.is_merged)).map
              (fun branch => ("  - ".data) ++ branch.name)
          ++ [("\n  Review these branches before deleting!".data)]) := by
  refine ⟨?_, ?_, ?_, ?_⟩
  · intro h
    have hne : (analysis.stale_branches.filter (fun b => b.is_merged)).isEmpty = false := by
      cases hl : analysis.stale_branches.filter (fun b => b.is_merged) with
      | nil => rw [hl] at h; simp at h
      | cons x xs => rfl
    constructor
    · unfold deletableLines
      simp only [hne, Bool.not_false, if_true]
      rw [if_pos h]
    · simp only [List.length_map, List.length_take]
      omega
  · intro hle hne0
    have hne : (analysis.stale_branches.filter (fun b => b.is_merged)).isEmpty = false := by
      cases hl : analysis.stale_branches.filter (fun b => b.is_merged) with
      | nil => exact absurd hl hne0
      | cons x xs => rfl
    unfold deletableLines
    simp only [hne, Bool.not_false, if_true]
    rw [if_neg (by omega), List.take_of_length_le hle]
    simp
  · intro h
    have hne : (analysis.stale_branches.filter (fun b => !b.is_merged)).isEmpty = false := by
      cases hl : analysis.stale_branches.filter (fun b => !b.is_merged) with
      | nil => rw [hl] at h; simp at h
      | cons x xs => rfl
    unfold staleUnmergedLines
    simp only [hne, Bool.not_false, if_true]
    rw [if_pos h]
  · intro hle hne0
    have hne : (analysis.stale_branches.filter (fun b => !b.is_merged)).isEmpty = false := by
      cases hl : analysis.stale_branches.filter (fun b => !b.is_merged) with
      | nil => exact absurd hl hne0
      | cons x xs => rfl
    unfold staleUnmergedLines
    simp only [hne, Bool.not_false, if_true]
    rw [if_neg (by omega), List.take_of_length_le hle]
    simp


/-- Witness for **C9**: with six qualifying branches, exactly five are
listed. -/
theorem C9_recommendation_cap_witness :
    (((exAnalysisBig.stale_branches.filter (fun b => b.is_merged)).take 5).map
        (fun branch => ("  - ".data) ++ branch.name)).length = 5 :=
  ((C9_recommendation_cap exAnalysisBig).1 (by decide)).2
